import Mathlib

/-!
# Verification of the `ctxport` configuration-resolution and file-filtering engine

This file gives a shallow embedding, in Lean 4, of the core of the `ctxport`
repository (a directory-to-markdown code exporter written in Python), and proves
or refutes a collection of claims about it.

Modelling conventions:
* Python `dict`s become association lists `List (String × String)`; Python's
  `{**a, **b}` update keeps `a`'s keys (with `b`'s values where present, in
  `a`'s insertion order) followed by `b`'s new keys, which `dictMerge` mirrors.
* Python `set`s become `List String` with an extensional union; the claims only
  inspect sets through membership.
* Filesystem paths become their component lists (`pathlib.PurePath.parts`
  without the root anchor), so `Path('/a/b').parent` is `List.dropLast`.
* File contents become `List Nat` (byte values), and text decodings are
  modelled by executable validity checkers on bytes.
* Fallible filesystem operations are fields of an abstract `FileSys` record so
  that theorems can quantify over filesystem contents.
-/

namespace Ctxport

/-! ## Association-list model of Python dicts -/

/-- Lookup of a key in an association list: Python `d.get(k)` / `k in d`.
Returns the value of the first entry whose key equals `k`. -/
def lookupKey (k : String) (l : List (String × String)) : Option String :=
  (l.find? (fun kv => kv.1 == k)).map (·.2)

/-- Python `{**a, **b}`: keys of `a` in `a`'s order, with values overridden by
`b` where `b` has the key, followed by keys of `b` that are not in `a`, in
`b`'s order. -/
def dictMerge (a b : List (String × String)) : List (String × String) :=
  a.map (fun kv => (kv.1, (lookupKey kv.1 b).getD kv.2))
    ++ b.filter (fun kv => (lookupKey kv.1 a).isNone)

/-! ## List model of Python sets (used only through membership) -/

/-- Python `s1 | s2` on sets, represented on duplicate-free lists: keep `a`
and add the elements of `b` not already present. -/
def setUnion (a b : List String) : List String :=
  a ++ b.filter (fun x => decide (x ∉ a))

/-! ## First-occurrence deduplication -/

/-- Python `list(dict.fromkeys(l))`: inserting every element of `l` as a dict
key in order keeps the first occurrence of each value in its original
position; later duplicates are dropped. Translated as the corresponding
left fold over an accumulator of already-seen values. -/
def pyDedupKeepFirst (l : List String) : List String :=
  l.foldl (fun acc x => if x ∈ acc then acc else acc ++ [x]) []

/-- The spec's description of the deduplication: keep each value's earliest
occurrence in place and drop every later duplicate.  Stated independently of
the `dict.fromkeys` translation so that agreement between the two is a
theorem, not a definition. -/
def dedupKeepingFirst : List String → List String
  | [] => []
  | x :: xs => x :: dedupKeepingFirst (xs.filter (fun y => decide (y ≠ x)))
termination_by l => l.length
decreasing_by
  exact Nat.lt_succ_of_le (List.length_filter_le _ _)

/-! ## The `Config` value object (`src/ctxport/config/config.py`) -/

/-- `Config` dataclass: language map by extension, language map by filename,
text-extension set, ordered ignore-pattern list, default language. -/
structure Config where
  language_map : List (String × String) := []
  filename_map : List (String × String) := []
  text_extensions : List String := []
  ignore_patterns : List String := []
  default_language : String := ""
deriving Repr, DecidableEq

/-- `Config()`: all fields take their empty default factories. -/
def Config.empty : Config := {}

/-- Python `b or a` on strings: `b` if non-empty, else `a`. -/
def pyOrStr (b a : String) : String :=
  if b = "" then a else b

/-- `Config.merge`: other's dict keys win, sets are unioned, ignore patterns
are concatenated then deduplicated keeping first occurrences, and
`default_language` is `other.default_language or self.default_language`. -/
def Config.merge (self other : Config) : Config :=
  { language_map := dictMerge self.language_map other.language_map
    filename_map := dictMerge self.filename_map other.filename_map
    text_extensions := setUnion self.text_extensions other.text_extensions
    ignore_patterns := pyDedupKeepFirst (self.ignore_patterns ++ other.ignore_patterns)
    default_language := pyOrStr other.default_language self.default_language }

/-- `Config.get_default_config()`: the built-in default configuration. -/
def defaultConfig : Config :=
  { language_map :=
      [(".py", "python"), (".js", "javascript"), (".jsx", "jsx"),
       (".ts", "typescript"), (".tsx", "tsx"), (".html", "html"),
       (".css", "css"), (".scss", "scss"), (".sass", "sass"),
       (".json", "json"), (".yaml", "yaml"), (".yml", "yaml"),
       (".md", "markdown"), (".sh", "bash"), (".bash", "bash"),
       (".zsh", "zsh"), (".fish", "fish"), (".ps1", "powershell"),
       (".c", "c"), (".cpp", "cpp"), (".cc", "cpp"), (".cxx", "cpp"),
       (".h", "c"), (".hpp", "cpp"), (".hxx", "cpp"), (".rs", "rust"),
       (".go", "go"), (".java", "java"), (".kt", "kotlin"),
       (".swift", "swift"), (".rb", "ruby"), (".php", "php"),
       (".sql", "sql"), (".r", "r"), (".R", "r"), (".m", "matlab"),
       (".jl", "julia"), (".tex", "latex"), (".xml", "xml"),
       (".vue", "vue"), (".svelte", "svelte")]
    filename_map :=
      [("dockerfile", "dockerfile"), ("makefile", "makefile"),
       ("gnumakefile", "makefile"), ("rakefile", "ruby"),
       ("gemfile", "ruby"), ("vagrantfile", "ruby"),
       ("jenkinsfile", "groovy"), ("fastfile", "ruby"),
       ("procfile", "yaml"), ("podfile", "ruby"),
       ("cakefile", "coffeescript"), ("gulpfile", "javascript"),
       ("gruntfile", "javascript")]
    text_extensions :=
      [".txt", ".md", ".yml", ".yaml", ".json", ".xml", ".html", ".css",
       ".js", ".jsx", ".ts", ".tsx", ".py", ".rb", ".php", ".java", ".cpp",
       ".c", ".h", ".rs", ".go", ".sh", ".bash", ".zsh", ".fish", ".ps1",
       ".dockerfile", ".gitignore", ".env", ".conf", ".cfg", ".ini",
       ".toml", ".lock", ".sum", ".mod"]
    ignore_patterns :=
      [".git/", "__pycache__/", "*.pyc", "*.pyo", "*.pyd", ".DS_Store",
       ".vscode/", ".idea/", "node_modules/", "venv/", ".env/",
       "*.min.js", "*.min.css"]
    default_language := "" }

/-! ## Shell-glob matching (`fnmatch.fnmatch` as used by `FileFilter`)

`fnmatch` translates a pattern to an anchored regular expression and tests the
whole name against it.  We embed the documented semantics: `*` matches any
(possibly empty) character sequence, `?` any single character, `[...]` a
character class with optional `!` negation, `a-b` ranges, a `]` directly after
the (possibly negated) opening bracket standing for itself, and an unterminated
`[` standing for a literal `[`.  POSIX `normcase` is the identity, so no case
folding happens. -/

/-- One item of a glob character class: a single character or a range. -/
inductive ClassItem where
  | single (c : Char)
  | range (lo hi : Char)
deriving Repr, DecidableEq

/-- One token of a tokenized glob pattern. -/
inductive GlobTok where
  | lit (c : Char)
  | any
  | star
  | cls (negated : Bool) (items : List ClassItem)
deriving Repr, DecidableEq

/-- Parse the inside of a character class into items; a `-` that is first,
last, or directly after a range is literal, otherwise `a-b` is a range. -/
def parseClassItems : List Char → List ClassItem
  | [] => []
  | a :: '-' :: b :: rest => .range a b :: parseClassItems rest
  | a :: rest => .single a :: parseClassItems rest

/-- Split a character list at the first `]`: the class content and the rest. -/
def findClosing : List Char → Option (List Char × List Char)
  | [] => none
  | ']' :: t => some ([], t)
  | c :: t => (findClosing t).map (fun p => (c :: p.1, p.2))

/-- Tokenize a glob pattern.  `fuel` bounds the recursion (each step consumes
at least one character, so `fuel = length` suffices) and keeps the definition
structurally recursive, hence reducible by `decide`. -/
def tokenizeGlobAux : Nat → List Char → List GlobTok
  | 0, _ => []
  | _ + 1, [] => []
  | fuel + 1, '*' :: t => .star :: tokenizeGlobAux fuel t
  | fuel + 1, '?' :: t => .any :: tokenizeGlobAux fuel t
  | fuel + 1, '[' :: t =>
    let negT : Bool × List Char := match t with
      | '!' :: t1 => (true, t1)
      | _ => (false, t)
    let scanned : Option (List Char × List Char) := match negT.2 with
      | ']' :: t2 => (findClosing t2).map (fun p => (']' :: p.1, p.2))
      | other => findClosing other
    match scanned with
    | some (content, rest) =>
      .cls negT.1 (parseClassItems content) :: tokenizeGlobAux fuel rest
    | none => .lit '[' :: tokenizeGlobAux fuel t
  | fuel + 1, c :: t => .lit c :: tokenizeGlobAux fuel t

/-- Tokenize a glob pattern string. -/
def tokenizeGlob (pattern : String) : List GlobTok :=
  tokenizeGlobAux pattern.data.length pattern.data

/-- Membership of a character in a class item list. -/
def inClass (items : List ClassItem) (c : Char) : Bool :=
  items.any fun item =>
    match item with
    | .single d => c == d
    | .range lo hi => lo ≤ c && c ≤ hi

/-- Match a tokenized glob pattern against a whole character list.  The `star`
case tries every suffix of the remaining input, which is the denotation of the
`.*` the Python translation produces. -/
def tokMatch : List GlobTok → List Char → Bool
  | [], s => s.isEmpty
  | .lit c :: ts, x :: xs => x == c && tokMatch ts xs
  | .lit _ :: _, [] => false
  | .any :: ts, _ :: xs => tokMatch ts xs
  | .any :: _, [] => false
  | .star :: ts, s => s.tails.any (tokMatch ts)
  | .cls neg items :: ts, x :: xs => (inClass items x != neg) && tokMatch ts xs
  | .cls _ _ :: _, [] => false

/-- `fnmatch.fnmatch(name, pattern)` on POSIX. -/
def fnmatch (name pattern : String) : Bool :=
  tokMatch (tokenizeGlob pattern) name.data

/-! ## Character-level string helpers

Python string operations, defined on the character lists underlying Lean
strings so that they evaluate by kernel reduction.  All strings the claims
touch are ASCII, where `str.lower()` agrees with per-character `Char.toLower`
and code-point comparison agrees between Python and Lean. -/

/-- Python `s.endswith(t)`. -/
def pyEndsWith (s t : String) : Bool :=
  t.data.isSuffixOf s.data

/-- Python `s.startswith(t)`. -/
def pyStartsWith (s t : String) : Bool :=
  t.data.isPrefixOf s.data

/-- Python `s[:-1]`: drop the final character. -/
def pyDropLastChar (s : String) : String :=
  String.mk s.data.dropLast

/-- Python `s.lower()` on ASCII strings. -/
def pyToLower (s : String) : String :=
  String.mk (s.data.map Char.toLower)

/-! ## Path helpers (`pathlib` on POSIX) -/

/-- `Path.name`: the final path component, `''` for an empty path. -/
def pathName (parts : List String) : String :=
  parts.getLastD ""

/-- `Path.suffix`: from the last dot of the name onward, provided that dot is
neither the first nor the last character of the name; otherwise `''`. -/
def pathSuffix (name : String) : String :=
  let cs := name.data
  match (cs.reverse.findIdx? (· == '.')) with
  | none => ""
  | some revIdx =>
    let i := cs.length - 1 - revIdx
    if 0 < i ∧ i < cs.length - 1 then String.mk (cs.drop i) else ""

/-- `Path.relative_to(base)`: the remaining components when `base`'s
components are a prefix, `None` (a raised `ValueError`) otherwise. -/
def relativeTo (base parts : List String) : Option (List String) :=
  if base.isPrefixOf parts then some (parts.drop base.length) else none

/-- `str(path)` for a relative path: components joined by `/`. -/
def joinPath (parts : List String) : String :=
  String.intercalate "/" parts

/-! ## Candidate files -/

/-- A directory entry as the filter sees it: its absolute components and
whether `is_file()` holds. -/
structure FileInfo where
  parts : List String
  isFile : Bool
deriving Repr, DecidableEq

/-! ## `FileFilter` (`src/ctxport/core/file_filter.py`) -/

/-- `FileFilter._always_ignore_files`: the tool's own configuration files. -/
def alwaysIgnoreFiles : List String :=
  [".ctxport.json", "ctxport.json", "context.ignore"]

/-- The directory-pattern branch of `should_ignore`: for a pattern ending in
`/`, literal equality of the text before the slash against any component of
the relative path. -/
def dirPatternMatch (pattern : String) (rel : List String) : Bool :=
  pyEndsWith pattern "/" && rel.any (fun part => part == pyDropLastChar pattern)

/-- One iteration of the pattern loop in `should_ignore`: the directory-pattern
branch, then a glob match against the joined relative path, then a glob match
against each individual component. -/
def patternMatches (pattern : String) (rel : List String) : Bool :=
  dirPatternMatch pattern rel
    || fnmatch (joinPath rel) pattern
    || rel.any (fun part => fnmatch part pattern)

/-- `FileFilter.should_ignore`: non-files are ignored; the tool's own config
files are ignored; a file outside the base directory (failing
`relative_to`) is ignored; otherwise the ignore patterns are tried in order. -/
def shouldIgnore (config : Config) (baseDirectory : List String)
    (f : FileInfo) : Bool :=
  if !f.isFile then true
  else if pathName f.parts ∈ alwaysIgnoreFiles then true
  else
    match relativeTo baseDirectory f.parts with
    | none => true
    | some rel => config.ignore_patterns.any (fun pattern => patternMatches pattern rel)

/-! ## Text detection (`src/ctxport/utils/mime_utils.py`)

File contents are byte lists.  `open(path, encoding='utf-8').read(4096)`
succeeds exactly when the probed prefix is valid UTF-8, and the Latin-1
retry succeeds for every byte value, since Latin-1 maps each of the 256 byte
values to a character. -/

/-- Strict UTF-8 validity (RFC 3629, as enforced by Python's `utf-8` codec):
no overlong forms, no surrogates, nothing above `U+10FFFF`. -/
def utf8Valid : List Nat → Bool
  | [] => true
  | b :: rest =>
    if b < 0x80 then utf8Valid rest
    else if 0xC2 ≤ b && b ≤ 0xDF then
      match rest with
      | c1 :: r => (0x80 ≤ c1 && c1 ≤ 0xBF) && utf8Valid r
      | [] => false
    else if 0xE0 ≤ b && b ≤ 0xEF then
      match rest with
      | c1 :: c2 :: r =>
        let lo1 := if b = 0xE0 then 0xA0 else 0x80
        let hi1 := if b = 0xED then 0x9F else 0xBF
        (lo1 ≤ c1 && c1 ≤ hi1) && (0x80 ≤ c2 && c2 ≤ 0xBF) && utf8Valid r
      | _ => false
    else if 0xF0 ≤ b && b ≤ 0xF4 then
      match rest with
      | c1 :: c2 :: c3 :: r =>
        let lo1 := if b = 0xF0 then 0x90 else 0x80
        let hi1 := if b = 0xF4 then 0x8F else 0xBF
        (lo1 ≤ c1 && c1 ≤ hi1) && (0x80 ≤ c2 && c2 ≤ 0xBF)
          && (0x80 ≤ c3 && c3 ≤ 0xBF) && utf8Valid r
      | _ => false
    else false

/-- Latin-1 decoding: every byte value below 256 is a Latin-1 character, so
decoding succeeds for every byte string. -/
def latin1Valid (content : List Nat) : Bool :=
  content.all (· < 256)

/-- The entries of Python's built-in `mimetypes` table that the theorems in
this file touch, as a `guess_type` extension lookup. -/
def mimeTypesTable : List (String × String) :=
  [(".bin", "application/octet-stream"), (".txt", "text/plain"),
   (".html", "text/html"), (".csv", "text/csv"), (".json", "application/json"),
   (".pdf", "application/pdf"), (".png", "image/png"), (".py", "text/x-python")]

/-- `mimetypes.guess_type(name)`: look the (lowercased) suffix up in the
types table. -/
def guessMimeType (name : String) : Option String :=
  lookupKey (pyToLower (pathSuffix name)) mimeTypesTable

/-- `mime_utils.is_text_file`: text MIME guess wins; otherwise probe the first
4096 bytes as UTF-8, then as Latin-1; an unreadable file is not text. -/
def mimeIsTextFile (name : String) (content : List Nat) (readable : Bool) : Bool :=
  match guessMimeType name with
  | some m =>
    if pyStartsWith m "text/" then true
    else mimeContentProbe content readable
  | none => mimeContentProbe content readable
where
  /-- The fallback content probe of `mime_utils.is_text_file`. -/
  mimeContentProbe (content : List Nat) (readable : Bool) : Bool :=
    if !readable then false
    else if utf8Valid (content.take 4096) then true
    else latin1Valid (content.take 4096)

/-- `FileFilter.is_text_file`: configured text extension, then configured
filename, then the MIME/content fallback. -/
def filterIsTextFile (config : Config) (f : FileInfo) (content : List Nat)
    (readable : Bool) : Bool :=
  if pyToLower (pathSuffix (pathName f.parts)) ∈ config.text_extensions then true
  else if (lookupKey (pyToLower (pathName f.parts)) config.filename_map).isSome then true
  else mimeIsTextFile (pathName f.parts) content readable

/-- `FileFilter.should_include_file`: not ignored, and a text file. -/
def shouldIncludeFile (config : Config) (baseDirectory : List String)
    (f : FileInfo) (content : List Nat) (readable : Bool) : Bool :=
  if shouldIgnore config baseDirectory f then false
  else if !filterIsTextFile config f content readable then false
  else true

/-! ## `FileHandler` (`src/core/file_handler.py`) -/

/-- `FileHandler.get_relative_path`: the path relative to the base directory,
or just the bare filename when `relative_to` raises. -/
def getRelativePath (baseDirectory parts : List String) : List String :=
  match relativeTo baseDirectory parts with
  | some rel => rel
  | none => [pathName parts]

/-! ## Configuration loading and resolution
(`src/ctxport/config/config_manager.py`)

Directories are component lists (no root anchor), so the filesystem root is
`[]`, `current.parent` is `List.dropLast`, and the walk condition
`current != current.parent` is `current ≠ []`. -/

/-- The raw content of one top-level field of a parsed config file: absent
(or present with a wrong type that the `isinstance` guard filters out), or a
present, well-typed value.  This is the crash-free fragment of the loader's
input domain: list fields whose elements are all strings.  A list field with
a non-string element passes the `isinstance(..., list)` guard and then
crashes the loader (`AttributeError` on `.startswith`); that fallible
behaviour is modelled separately by `RawConfigData`/`JsonParse` below. -/
structure ConfigData where
  language_map : Option (List (String × String)) := none
  filename_map : Option (List (String × String)) := none
  text_extensions : Option (List String) := none
  ignore_patterns : Option (List String) := none
  default_language : Option String := none
deriving Repr, DecidableEq

/-- Reading and JSON-parsing one config file on the crash-free fragment:
either a decode/read error (caught by the loader) or a well-typed parsed
object.  The full input domain, which also contains shapes on which the real
loader raises, is `JsonParse` below. -/
inductive JsonOutcome where
  | malformed
  | ok (data : ConfigData)
deriving Repr, DecidableEq

/-- `ConfigManager._load_config_file` on the crash-free fragment: a file
failing JSON decoding (or unreadable) becomes an empty `Config`; otherwise
each well-typed field is taken over with `#`-prefixed keys and entries
dropped.  `loadConfigFileRaw` below extends this to the inputs on which the
real loader raises. -/
def loadConfigFile : JsonOutcome → Config
  | .malformed => Config.empty
  | .ok data =>
    { language_map :=
        (data.language_map.getD []).filter (fun kv => !pyStartsWith kv.1 "#")
      filename_map :=
        (data.filename_map.getD []).filter (fun kv => !pyStartsWith kv.1 "#")
      text_extensions :=
        (data.text_extensions.getD []).filter (fun ext => !pyStartsWith ext "#")
      ignore_patterns :=
        (data.ignore_patterns.getD []).filter (fun pat => !pyStartsWith pat "#")
      default_language := data.default_language.getD "" }

/-- The filesystem as the resolver sees it: for each directory, the outcome of
reading `<dir>/.ctxport.json` when that file exists, and the patterns loaded
from `<dir>/context.ignore` (empty when the file is missing or unreadable). -/
structure FileSys where
  dirConfig : List String → Option JsonOutcome
  legacy : List String → List String

/-- The collection loop of `get_config_for_directory`, walking from the
target directory up to (but excluding) the filesystem root and collecting
the directories that have a `.ctxport.json`, closest first.  To keep the
recursion structural the walk runs over the reversed component list. -/
def collectConfigDirsRev (fs : FileSys) : List String → List (List String)
  | [] => []
  | seg :: rest =>
    (if (fs.dirConfig ((seg :: rest).reverse)).isSome
      then [(seg :: rest).reverse] else [])
      ++ collectConfigDirsRev fs rest

/-- The directories with a config file on the walk from `directory` up to the
root, closest first (the root itself is never examined: the loop stops when
`current == current.parent`). -/
def collectConfigDirs (fs : FileSys) (directory : List String) : List (List String) :=
  collectConfigDirsRev fs directory.reverse

/-- Load the config file of a collected directory. -/
def loadDirConfig (fs : FileSys) (d : List String) : Config :=
  match fs.dirConfig d with
  | some outcome => loadConfigFile outcome
  | none => Config.empty

/-- The merging core of `ConfigManager.get_config_for_directory` (without
the memoization, which only caches the pure result): defaults, then the
global config, then the collected per-directory configs root-most first. -/
def resolveDirConfigs (fs : FileSys) (globalConfig : Config)
    (directory : List String) : Config :=
  (collectConfigDirs fs directory).reverse.foldl
    (fun m d => m.merge (loadDirConfig fs d)) (defaultConfig.merge globalConfig)

/-- The final step of `get_config_for_directory`: merge in an
ignore-patterns-only config built from `context.ignore` when that file
yielded any patterns. -/
def getConfigForDirectory (fs : FileSys) (globalConfig : Config)
    (directory : List String) : Config :=
  if (fs.legacy directory).isEmpty then resolveDirConfigs fs globalConfig directory
  else (resolveDirConfigs fs globalConfig directory).merge
    { Config.empty with ignore_patterns := fs.legacy directory }

/-! ## Fallible configuration loading

`_load_config_file` catches only `(json.JSONDecodeError, OSError)`.  A file
that decodes to JSON of the wrong shape crashes it: a non-container top
level (number, boolean, `null`) raises `TypeError` at
`'language_map' in data`, and a `text_extensions` or `ignore_patterns` list
containing a non-string element passes the `isinstance(..., list)` guard and
raises `AttributeError` at `.startswith('#')`.  Neither exception is caught
in `get_config_for_directory` nor around `set_directory` in `main.py`, so a
per-directory config of such shape crashes the command.  (The global config
and the legacy ignore file are each loaded under a broad `except Exception`
and cannot crash it.)  The refined model below represents these inputs and
makes loading and resolution return `Except`. -/

/-- One element of a decoded JSON array as the field filters see it: a
string, or any non-string JSON value (number, boolean, `null`, array,
object), which has no `.startswith` method. -/
inductive JsonElem where
  | str (s : String)
  | nonStr
deriving Repr, DecidableEq

/-- The decoded fields of a top-level JSON object, with list fields kept as
raw element lists so that non-string elements are representable.  Map fields
and `default_language` conflate absent and wrong-typed (the `isinstance`
guard skips both without raising); JSON object keys are always strings, so
the key filters of the map fields cannot raise. -/
structure RawConfigData where
  language_map : Option (List (String × String)) := none
  filename_map : Option (List (String × String)) := none
  text_extensions : Option (List JsonElem) := none
  ignore_patterns : Option (List JsonElem) := none
  default_language : Option String := none
deriving Repr, DecidableEq

/-- The outcome of reading and JSON-decoding one config file, refined over
`JsonOutcome`: a decode/read error (caught), a top-level value that supports
no `in` test with a string (number, boolean, `null` — `TypeError`), a
top-level JSON array containing none of the recognized key strings (all
membership tests false, loaded as empty; arrays and strings that do contain
a key string raise and are outside this model's domain), or a top-level
object. -/
inductive JsonParse where
  | malformed
  | scalar
  | array
  | obj (data : RawConfigData)
deriving Repr, DecidableEq

/-- An exception escaping `_load_config_file`. -/
inductive LoadError where
  | typeError
  | attributeError
deriving Repr, DecidableEq

/-- Whether a JSON array element is a string. -/
def elemIsStr : JsonElem → Bool
  | .str _ => true
  | .nonStr => false

/-- The string of a string element (unused default otherwise). -/
def elemStr : JsonElem → String
  | .str s => s
  | .nonStr => ""

/-- Loading one list-of-strings field: iterating the comprehension calls
`.startswith('#')` on every element, so any non-string element raises
`AttributeError`; otherwise the `#`-prefixed entries are dropped. -/
def loadStrListField (elems : List JsonElem) : Except LoadError (List String) :=
  if elems.all elemIsStr then
    .ok ((elems.map elemStr).filter (fun s => !pyStartsWith s "#"))
  else .error .attributeError

/-- `ConfigManager._load_config_file` on the full modelled domain: caught
decode/read errors yield an empty `Config`; a non-container top level
raises `TypeError`; a keyless-array top level loads as empty; an object
loads its fields, with the list fields able to raise `AttributeError`. -/
def loadConfigFileRaw : JsonParse → Except LoadError Config
  | .malformed => .ok Config.empty
  | .scalar => .error .typeError
  | .array => .ok Config.empty
  | .obj data => do
    let te ← match data.text_extensions with
      | some elems => loadStrListField elems
      | none => .ok []
    let ip ← match data.ignore_patterns with
      | some elems => loadStrListField elems
      | none => .ok []
    .ok { language_map :=
            (data.language_map.getD []).filter (fun kv => !pyStartsWith kv.1 "#")
          filename_map :=
            (data.filename_map.getD []).filter (fun kv => !pyStartsWith kv.1 "#")
          text_extensions := te
          ignore_patterns := ip
          default_language := data.default_language.getD "" }

/-- The filesystem for the fallible model: the decoded shape of each
existing `<dir>/.ctxport.json`, and the legacy patterns per directory. -/
structure FileSysRaw where
  dirConfig : List String → Option JsonParse
  legacy : List String → List String

/-- The collection walk of `get_config_for_directory` over the fallible
filesystem (existence checks only; nothing is loaded yet). -/
def collectRawConfigDirsRev (fs : FileSysRaw) : List String → List (List String)
  | [] => []
  | seg :: rest =>
    (if (fs.dirConfig ((seg :: rest).reverse)).isSome
      then [(seg :: rest).reverse] else [])
      ++ collectRawConfigDirsRev fs rest

/-- The directories with a config file on the walk, closest first. -/
def collectRawConfigDirs (fs : FileSysRaw) (directory : List String) :
    List (List String) :=
  collectRawConfigDirsRev fs directory.reverse

/-- Load the config file of a collected directory; may raise. -/
def loadRawDirConfig (fs : FileSysRaw) (d : List String) :
    Except LoadError Config :=
  match fs.dirConfig d with
  | some p => loadConfigFileRaw p
  | none => .ok Config.empty

/-- The merging loop of `get_config_for_directory` over the fallible
loader: the first exception raised by a load aborts the whole resolution. -/
def resolveDirConfigsE (fs : FileSysRaw) (globalConfig : Config)
    (directory : List String) : Except LoadError Config :=
  (collectRawConfigDirs fs directory).reverse.foldlM
    (fun m q => (loadRawDirConfig fs q).map (fun c => m.merge c))
    (defaultConfig.merge globalConfig)

/-- `get_config_for_directory` over the fallible loader: a load exception
propagates to the caller (and, uncaught in `main.py`, crashes the command);
otherwise the legacy patterns are merged last as before. -/
def getConfigForDirectoryE (fs : FileSysRaw) (globalConfig : Config)
    (directory : List String) : Except LoadError Config :=
  match resolveDirConfigsE fs globalConfig directory with
  | .error e => .error e
  | .ok m =>
    if (fs.legacy directory).isEmpty then .ok m
    else .ok (m.merge { Config.empty with ignore_patterns := fs.legacy directory })

/-- The same fallible filesystem with the config file at `p` replaced by one
that exists and decodes to an object with no recognized fields. -/
def FileSysRaw.withEmptyRawConfigAt (fs : FileSysRaw) (p : List String) :
    FileSysRaw :=
  { dirConfig := fun q => if q = p then some (.obj {}) else fs.dirConfig q
    legacy := fs.legacy }

/-! ## Traversal (`src/ctxport/utils/path_utils.py`)

`find_files` iterates `directory.rglob("*")` and yields the entries that are
files.  `pathlib`'s recursive glob catches `PermissionError` per directory
when listing it, skipping exactly that directory's contents and continuing
with its siblings; the tree model marks each directory as readable or not,
and an unreadable directory's subtree contributes nothing. -/

/-- A filesystem subtree: a file, or a directory with a readability flag and
children. -/
inductive FSTree where
  | file (name : String)
  | dir (name : String) (readable : Bool) (children : List FSTree)

mutual

/-- The relative paths (from the entry's parent) of the files that
`rglob("*")` reaches inside one entry: a file is itself; a readable
directory prefixes its name onto the files under its children; listing an
unreadable directory raises `PermissionError`, which the glob swallows, so
its subtree yields nothing. -/
def filesUnder : FSTree → List (List String)
  | .file name => [[name]]
  | .dir name true children => (forestFiles children).map (fun p => name :: p)
  | .dir _ false _ => []

/-- The files the recursive glob reaches under a list of sibling entries. -/
def forestFiles : List FSTree → List (List String)
  | [] => []
  | t :: ts => filesUnder t ++ forestFiles ts

end

/-- `find_files(directory)`: the files under the root directory's children,
as paths relative to the root; nothing when the root cannot be listed. -/
def findFiles : FSTree → List (List String)
  | .file _ => []
  | .dir _ true children => forestFiles children
  | .dir _ false _ => []

/-! ## Export processing order (`src/ctxport/core/exporter.py`)

`export_directory` iterates `sorted(find_files(self.directory))`.  `pathlib`
compares paths by their `parts` tuples (elementwise string comparison, a
strict prefix sorting first), not by the path string.  All enumerated paths
share the base-directory prefix, so sorting the absolute paths orders them
exactly as their relative component lists do. -/

/-- Python `<` on strings: lexicographic comparison by code point. -/
def charsLt : List Char → List Char → Bool
  | [], [] => false
  | [], _ :: _ => true
  | _ :: _, [] => false
  | a :: as, b :: bs => if a = b then charsLt as bs else decide (a < b)

/-- Python `a < b` on strings. -/
def strLt (a b : String) : Bool :=
  charsLt a.data b.data

/-- Python `<=` on component tuples: elementwise by string comparison, a
proper prefix sorting first.  This is the order `sorted()` applies to
`pathlib` paths. -/
def partsLe : List String → List String → Bool
  | [], _ => true
  | _ :: _, [] => false
  | a :: as, b :: bs => if a = b then partsLe as bs else strLt a b

/-- Strict version of `partsLe`. -/
def partsLt : List String → List String → Bool
  | [], [] => false
  | [], _ :: _ => true
  | _ :: _, [] => false
  | a :: as, b :: bs => if a = b then partsLt as bs else strLt a b

/-- The order relation `sorted()` uses on the enumerated paths. -/
def pathOrder (a b : List String) : Prop :=
  partsLe a b = true

instance : DecidableRel pathOrder := fun a b =>
  inferInstanceAs (Decidable (partsLe a b = true))

/-- The sequence of candidate files `export_directory` hands to
classification: the enumerated files in `sorted()` order. -/
def sortFiles (files : List (List String)) : List (List String) :=
  List.insertionSort pathOrder files

/-! ## Helper lemmas about the dict, set and deduplication models -/

theorem find?_filter_of_imp {α : Type} {p q : α → Bool} (l : List α)
    (h : ∀ x, p x = true → q x = true) : (l.filter q).find? p = l.find? p := by
  induction l with
  | nil => rfl
  | cons x xs ih =>
    by_cases hq : q x = true
    · by_cases hp : p x = true
      · rw [List.filter_cons_of_pos hq, List.find?_cons_of_pos _ hp,
          List.find?_cons_of_pos _ hp]
      · rw [List.filter_cons_of_pos hq,
          List.find?_cons_of_neg _ (by simpa using hp),
          List.find?_cons_of_neg _ (by simpa using hp), ih]
    · have hp : ¬p x = true := fun hc => hq (h x hc)
      rw [List.filter_cons_of_neg (by simpa using hq), ih,
        List.find?_cons_of_neg _ (by simpa using hp)]

theorem lookupKey_cons (k : String) (kv : String × String)
    (l : List (String × String)) :
    lookupKey k (kv :: l) = if kv.1 == k then some kv.2 else lookupKey k l := by
  unfold lookupKey
  cases hk : (kv.1 == k) <;> simp [List.find?, hk]

theorem lookupKey_append (k : String) (u v : List (String × String)) :
    lookupKey k (u ++ v) = (lookupKey k u).or (lookupKey k v) := by
  unfold lookupKey
  rw [List.find?_append]
  cases u.find? (fun kv => kv.1 == k) <;> simp [Option.or]

theorem lookupKey_dictMerge_mapPart (a b : List (String × String)) (k : String) :
    lookupKey k (a.map (fun kv => (kv.1, (lookupKey kv.1 b).getD kv.2)))
      = (lookupKey k a).map (fun _ => (lookupKey k b).getD ((lookupKey k a).getD "")) := by
  induction a with
  | nil => rfl
  | cons kv a ih =>
    rw [List.map_cons, lookupKey_cons, lookupKey_cons]
    by_cases hk : (kv.1 == k) = true
    · have hkv : kv.1 = k := by simpa using hk
      simp [hk, hkv]
    · simp only [hk, if_neg, Bool.false_eq_true, not_false_iff, ite_false]
      exact ih

theorem lookupKey_dictMerge_filterPart (a b : List (String × String)) (k : String)
    (ha : lookupKey k a = none) :
    lookupKey k (b.filter (fun kv => (lookupKey kv.1 a).isNone)) = lookupKey k b := by
  have hfind : (b.filter (fun kv => (lookupKey kv.1 a).isNone)).find?
      (fun kv => kv.1 == k) = b.find? (fun kv => kv.1 == k) := by
    apply find?_filter_of_imp
    intro x hx
    have hxk : x.1 = k := by simpa using hx
    rw [hxk, ha]
    rfl
  exact congrArg (Option.map (·.2)) hfind

theorem lookupKey_dictMerge_of_isSome (a b : List (String × String)) (k : String)
    (h : (lookupKey k b).isSome = true) :
    lookupKey k (dictMerge a b) = lookupKey k b := by
  obtain ⟨v, hv⟩ := Option.isSome_iff_exists.mp h
  unfold dictMerge
  rw [lookupKey_append]
  cases ha : lookupKey k a with
  | some w =>
    rw [lookupKey_dictMerge_mapPart, ha, hv]
    rfl
  | none =>
    rw [lookupKey_dictMerge_mapPart, ha,
      lookupKey_dictMerge_filterPart a b k ha, hv]
    rfl

theorem dictMerge_nil_left (b : List (String × String)) : dictMerge [] b = b := by
  unfold dictMerge
  simp [lookupKey]

theorem dictMerge_nil_right (a : List (String × String)) : dictMerge a [] = a := by
  unfold dictMerge
  simp [lookupKey]

theorem mem_setUnion (a b : List String) (x : String) :
    x ∈ setUnion a b ↔ x ∈ a ∨ x ∈ b := by
  unfold setUnion
  by_cases hx : x ∈ a
  · simp [hx]
  · simp [hx, List.mem_filter]

theorem setUnion_nil_left (b : List String) : setUnion [] b = b := by
  simp [setUnion]

theorem setUnion_nil_right (a : List String) : setUnion a [] = a := by
  simp [setUnion]

theorem dedupKeepingFirst_nil : dedupKeepingFirst [] = [] := by
  simp [dedupKeepingFirst]

theorem dedupKeepingFirst_cons (x : String) (xs : List String) :
    dedupKeepingFirst (x :: xs)
      = x :: dedupKeepingFirst (xs.filter (fun y => decide (y ≠ x))) := by
  simp [dedupKeepingFirst]

theorem pyDedup_go_eq (l acc : List String) :
    l.foldl (fun acc x => if x ∈ acc then acc else acc ++ [x]) acc
      = acc ++ dedupKeepingFirst (l.filter (fun x => decide (x ∉ acc))) := by
  induction l generalizing acc with
  | nil => simp [dedupKeepingFirst_nil]
  | cons x xs ih =>
    rw [List.foldl_cons]
    by_cases hx : x ∈ acc
    · rw [if_pos hx, ih acc, List.filter_cons_of_neg (by simp [hx])]
    · rw [if_neg hx, ih (acc ++ [x]), List.filter_cons_of_pos (by simp [hx]),
        dedupKeepingFirst_cons, List.filter_filter, List.append_assoc,
        List.singleton_append]
      have hfilters :
          xs.filter (fun y => decide (y ∉ acc ++ [x]))
            = xs.filter (fun y => decide (y ≠ x) && decide (y ∉ acc)) := by
        apply List.filter_congr
        intro y _
        by_cases hy : y = x
        · subst hy
          simp
        · simp [hy]
      rw [hfilters]

theorem pyDedupKeepFirst_eq (l : List String) :
    pyDedupKeepFirst l = dedupKeepingFirst l := by
  unfold pyDedupKeepFirst
  rw [pyDedup_go_eq]
  simp

theorem dedupKeepingFirst_of_nodup (l : List String) (h : l.Nodup) :
    dedupKeepingFirst l = l := by
  induction l with
  | nil => exact dedupKeepingFirst_nil
  | cons x xs ih =>
    rw [dedupKeepingFirst_cons]
    have hx : x ∉ xs := (List.nodup_cons.mp h).1
    have hfix : xs.filter (fun y => decide (y ≠ x)) = xs := by
      apply List.filter_eq_self.mpr
      intro y hy
      simp only [decide_eq_true_eq]
      exact fun hyx => hx (hyx ▸ hy)
    rw [hfix, ih (List.nodup_cons.mp h).2]

theorem pyDedupKeepFirst_of_nodup (l : List String) (h : l.Nodup) :
    pyDedupKeepFirst l = l := by
  rw [pyDedupKeepFirst_eq, dedupKeepingFirst_of_nodup l h]

/-! ## Claims -/

/-- C5: Self-protection invariant — for every Config and base directory, a
file whose name is exactly `.ctxport.json`, `ctxport.json` or
`context.ignore` is excluded by `should_ignore`, regardless of the
configuration's ignore patterns, maps and default language. -/
theorem config_files_always_ignored (config : Config) (base : List String)
    (f : FileInfo) (h : pathName f.parts ∈ alwaysIgnoreFiles) :
    shouldIgnore config base f = true := by
  unfold shouldIgnore
  by_cases hf : f.isFile
  · simp [hf, h]
  · simp [hf]

/-- Witness for C5: a file literally named `.ctxport.json` in the target
directory is ignored even under the empty configuration. -/
theorem config_files_always_ignored_witness :
    shouldIgnore Config.empty ["proj"] ⟨["proj", ".ctxport.json"], true⟩ = true :=
  config_files_always_ignored Config.empty ["proj"]
    ⟨["proj", ".ctxport.json"], true⟩ (by decide)

/-- C9: A path that is not under the filter's base directory (so that
`relative_to` fails) is excluded by `should_ignore` rather than raising,
and `FileHandler.get_relative_path` returns just the bare filename. -/
theorem out_of_base_excluded (config : Config) (base : List String)
    (f : FileInfo) (h : relativeTo base f.parts = none) :
    shouldIgnore config base f = true
      ∧ getRelativePath base f.parts = [pathName f.parts] := by
  constructor
  · unfold shouldIgnore
    by_cases hf : f.isFile
    · by_cases hn : pathName f.parts ∈ alwaysIgnoreFiles
      · simp [hf, hn]
      · simp [hf, hn, h]
    · simp [hf]
  · unfold getRelativePath
    rw [h]

/-- Witness for C9: `/other/file.py` against base `/base`. -/
theorem out_of_base_excluded_witness :
    shouldIgnore Config.empty ["base"] ⟨["other", "file.py"], true⟩ = true
      ∧ getRelativePath ["base"] ["other", "file.py"]
          = [pathName ["other", "file.py"]] :=
  out_of_base_excluded Config.empty ["base"] ⟨["other", "file.py"], true⟩
    (by decide)

/-- C2: `Config.merge` postcondition — every key present in the other
config's `language_map` and `filename_map` wins; `text_extensions` is the
set union (characterized by membership); `ignore_patterns` is the
concatenation deduplicated keeping each value's earliest occurrence; and
`default_language` is the other's value when non-empty, else the
receiver's. -/
theorem config_merge_spec (a b : Config) :
    (∀ k, (lookupKey k b.language_map).isSome = true →
      lookupKey k ((a.merge b).language_map) = lookupKey k b.language_map)
    ∧ (∀ k, (lookupKey k b.filename_map).isSome = true →
      lookupKey k ((a.merge b).filename_map) = lookupKey k b.filename_map)
    ∧ (∀ x, x ∈ (a.merge b).text_extensions
        ↔ x ∈ a.text_extensions ∨ x ∈ b.text_extensions)
    ∧ (a.merge b).ignore_patterns
        = dedupKeepingFirst (a.ignore_patterns ++ b.ignore_patterns)
    ∧ (a.merge b).default_language
        = (if b.default_language = "" then a.default_language
           else b.default_language) := by
  refine ⟨?_, ?_, ?_, ?_, ?_⟩
  · exact fun k h => lookupKey_dictMerge_of_isSome _ _ k h
  · exact fun k h => lookupKey_dictMerge_of_isSome _ _ k h
  · exact fun x => mem_setUnion _ _ x
  · exact pyDedupKeepFirst_eq _
  · rfl

/-- Witness for C2, including the spec's concrete deduplication example:
merging ignore lists `["x","y"]` and `["y","z"]` yields `["x","y","z"]`,
and the other config's value wins for a shared `language_map` key. -/
theorem config_merge_spec_witness :
    lookupKey ".b"
        ((Config.mk [(".b", "lang-b")] [] [] ["x", "y"] "").merge
          (Config.mk [(".b", "new-lang-b")] [] [] ["y", "z"] "")).language_map
      = some "new-lang-b"
    ∧ ((Config.mk [(".b", "lang-b")] [] [] ["x", "y"] "").merge
        (Config.mk [(".b", "new-lang-b")] [] [] ["y", "z"] "")).ignore_patterns
      = ["x", "y", "z"] := by
  obtain ⟨h1, _, _, h4, _⟩ :=
    config_merge_spec (Config.mk [(".b", "lang-b")] [] [] ["x", "y"] "")
      (Config.mk [(".b", "new-lang-b")] [] [] ["y", "z"] "")
  constructor
  · rw [h1 ".b" (by decide)]
    decide
  · rw [h4, ← pyDedupKeepFirst_eq]
    decide

/-- C10: a freshly constructed empty `Config` is a merge identity on both
sides, field for field, for every config whose ignore-pattern list has no
duplicates. -/
theorem empty_merge_identity (c : Config) (h : c.ignore_patterns.Nodup) :
    Config.empty.merge c = c ∧ c.merge Config.empty = c := by
  have hded : pyDedupKeepFirst c.ignore_patterns = c.ignore_patterns :=
    pyDedupKeepFirst_of_nodup _ h
  have hor : pyOrStr c.default_language "" = c.default_language := by
    by_cases hd : c.default_language = ""
    · simp [pyOrStr, hd]
    · simp [pyOrStr, hd]
  constructor
  · cases c with
    | mk lm fm te ip dl =>
      simp_all [Config.merge, Config.empty, Config.mk.injEq,
        dictMerge_nil_left, setUnion_nil_left]
  · cases c with
    | mk lm fm te ip dl =>
      simp_all [Config.merge, Config.empty, Config.mk.injEq,
        dictMerge_nil_right, setUnion_nil_right, pyOrStr]

/-- Witness for C10 at a concrete config. -/
theorem empty_merge_identity_witness :
    Config.empty.merge (Config.mk [(".a", "la")] [("mk", "lb")] [".t"]
        ["p", "q"] "d")
      = Config.mk [(".a", "la")] [("mk", "lb")] [".t"] ["p", "q"] "d"
    ∧ (Config.mk [(".a", "la")] [("mk", "lb")] [".t"] ["p", "q"] "d").merge
        Config.empty
      = Config.mk [(".a", "la")] [("mk", "lb")] [".t"] ["p", "q"] "d" :=
  empty_merge_identity
    (Config.mk [(".a", "la")] [("mk", "lb")] [".t"] ["p", "q"] "d") (by decide)

/-- Counterexample to C3 as stated: for the directory pattern `build/` and
the relative path `build` (a file directly in the base directory whose own
name is `build`), the directory-pattern branch — and with it the whole
ignore check — matches, although no segment other than the last (there is
none: `dropLast` is empty) equals `build`.  The code compares the directory
name against every component, the last one included. -/
theorem dir_pattern_claim_counterexample :
    dirPatternMatch "build/" ["build"] = true
    ∧ ["build"].dropLast = ([] : List String)
    ∧ shouldIgnore { Config.empty with ignore_patterns := ["build/"] }
        ["r"] ⟨["r", "build"], true⟩ = true := by
  decide

/-- C3 (amended): for every ignore pattern ending in `/`, the
directory-pattern branch matches a relative path iff some path segment —
including possibly the last — is literally equal to the pattern text with
the trailing slash removed; no glob expansion is applied on this branch. -/
theorem dir_pattern_matches_any_segment (pattern : String) (rel : List String)
    (h : pyEndsWith pattern "/" = true) :
    dirPatternMatch pattern rel = true ↔ pyDropLastChar pattern ∈ rel := by
  unfold dirPatternMatch
  rw [h, Bool.true_and, List.any_eq_true]
  constructor
  · rintro ⟨part, hmem, hpart⟩
    exact (eq_of_beq hpart) ▸ hmem
  · intro hmem
    exact ⟨pyDropLastChar pattern, hmem, by simp⟩

/-- Witness for the amended C3: `node_modules/` matches a path with the
component `node_modules`. -/
theorem dir_pattern_matches_any_segment_witness :
    dirPatternMatch "node_modules/" ["node_modules", "a.js"] = true
      ↔ pyDropLastChar "node_modules/" ∈ ["node_modules", "a.js"] :=
  dir_pattern_matches_any_segment "node_modules/" ["node_modules", "a.js"]
    (by decide)

theorem forestFiles_append (l₁ l₂ : List FSTree) :
    forestFiles (l₁ ++ l₂) = forestFiles l₁ ++ forestFiles l₂ := by
  induction l₁ with
  | nil => rfl
  | cons t ts ih => simp [forestFiles, ih]

/-- C7: traversal error containment — a directory that raises a permission
error when listed contributes no files at all, and the walk of a tree
containing such a directory still enumerates exactly the files of every
sibling subtree, wherever the unreadable directory sits among them. -/
theorem traversal_permission_containment (root bad : String)
    (pre post badKids : List FSTree) :
    filesUnder (.dir bad false badKids) = []
    ∧ findFiles (.dir root true (pre ++ .dir bad false badKids :: post))
        = forestFiles pre ++ forestFiles post := by
  constructor
  · rfl
  · show forestFiles (pre ++ .dir bad false badKids :: post) = _
    rw [forestFiles_append]
    simp [forestFiles, filesUnder]

theorem collectRawConfigDirsRev_congr (fs fs' : FileSysRaw)
    (h : ∀ q, (fs.dirConfig q).isSome = (fs'.dirConfig q).isSome) :
    ∀ l, collectRawConfigDirsRev fs l = collectRawConfigDirsRev fs' l := by
  intro l
  induction l with
  | nil => rfl
  | cons x xs ih => simp [collectRawConfigDirsRev, h, ih]

theorem foldlM_except_congr {ε α β : Type} (f g : β → α → Except ε β)
    (h : ∀ b a, f b a = g b a) :
    ∀ (l : List α) (init : β), l.foldlM f init = l.foldlM g init := by
  intro l
  induction l with
  | nil => intro init; rfl
  | cons x xs ih =>
    intro init
    show f init x >>= (fun b => xs.foldlM f b)
      = g init x >>= (fun b => xs.foldlM g b)
    rw [h init x]
    cases g init x with
    | error e => rfl
    | ok b => exact ih b

/-- Counterexample to C6 as stated: a per-directory config file whose content
is JSON-valid but not of the expected structure can crash resolution.  A
`text_extensions` list containing a non-string element raises
`AttributeError` inside `_load_config_file` (uncaught, since only
`JSONDecodeError` and `OSError` are caught), a non-container top level
raises `TypeError`, and the exception escapes `get_config_for_directory`:
resolution does not continue to a `Config`, contradicting the claim that
loading any malformed source yields an empty `Config` and resolution never
aborts. -/
theorem malformed_config_claim_counterexample :
    loadConfigFileRaw (.obj { text_extensions := some [.str "a", .nonStr] })
      = .error .attributeError
    ∧ loadConfigFileRaw .scalar = .error .typeError
    ∧ getConfigForDirectoryE
        ⟨fun q => if q = ["proj"] then
            some (.obj { text_extensions := some [.str "a", .nonStr] }) else none,
          fun _ => []⟩
        Config.empty ["proj"]
      = .error .attributeError :=
  ⟨rfl, rfl, rfl⟩

/-- C6 (amended): a config file whose content fails JSON decoding or cannot
be read — the error classes `_load_config_file` catches — loads as the
empty `Config`, and directory resolution completes and returns the same
result it would had the file existed and decoded to an empty object.  (A
file that decodes to JSON of the wrong shape instead raises, and the
exception escapes resolution.) -/
theorem malformed_json_config_tolerated (fs : FileSysRaw) (g : Config)
    (d p : List String) (h : fs.dirConfig p = some .malformed) :
    loadConfigFileRaw .malformed = .ok Config.empty
    ∧ getConfigForDirectoryE fs g d
        = getConfigForDirectoryE (fs.withEmptyRawConfigAt p) g d := by
  refine ⟨rfl, ?_⟩
  have hcol : collectRawConfigDirs fs d
      = collectRawConfigDirs (fs.withEmptyRawConfigAt p) d := by
    unfold collectRawConfigDirs
    apply collectRawConfigDirsRev_congr
    intro q
    by_cases hq : q = p
    · subst hq
      simp [FileSysRaw.withEmptyRawConfigAt, h]
    · simp [FileSysRaw.withEmptyRawConfigAt, hq]
  have hload : ∀ q, loadRawDirConfig fs q
      = loadRawDirConfig (fs.withEmptyRawConfigAt p) q := by
    intro q
    by_cases hq : q = p
    · subst hq
      show loadRawDirConfig fs q = loadRawDirConfig (fs.withEmptyRawConfigAt q) q
      unfold loadRawDirConfig FileSysRaw.withEmptyRawConfigAt
      rw [h]
      simp
      rfl
    · unfold loadRawDirConfig FileSysRaw.withEmptyRawConfigAt
      simp [hq]
  have hres : resolveDirConfigsE fs g d
      = resolveDirConfigsE (fs.withEmptyRawConfigAt p) g d := by
    unfold resolveDirConfigsE
    rw [hcol]
    apply foldlM_except_congr
    intro b a
    rw [hload a]
  unfold getConfigForDirectoryE
  rw [hres]
  rfl

/-- Witness for the amended C6: a filesystem whose only config file, at the
target directory itself, fails JSON decoding. -/
theorem malformed_json_config_tolerated_witness :
    loadConfigFileRaw .malformed = .ok Config.empty
    ∧ getConfigForDirectoryE
        ⟨fun q => if q = ["proj"] then some .malformed else none, fun _ => []⟩
        Config.empty ["proj"]
      = getConfigForDirectoryE
        ((⟨fun q => if q = ["proj"] then some .malformed else none,
            fun _ => []⟩ : FileSysRaw).withEmptyRawConfigAt ["proj"])
        Config.empty ["proj"] :=
  malformed_json_config_tolerated
    ⟨fun q => if q = ["proj"] then some .malformed else none, fun _ => []⟩
    Config.empty ["proj"] ["proj"] (by decide)

/-- C1: config resolution precedence — when the target directory itself has
a config file whose parsed `language_map` binds a key, that binding wins in
the resolved config over the built-in default, the global config, and every
config file further up the walk (the legacy ignore file, merged last,
carries no language bindings and cannot override it). -/
theorem closest_config_wins (fs : FileSys) (g : Config) (d : List String)
    (src : JsonOutcome) (k v : String) (hd : d ≠ [])
    (hsrc : fs.dirConfig d = some src)
    (hk : lookupKey k (loadConfigFile src).language_map = some v) :
    lookupKey k (getConfigForDirectory fs g d).language_map = some v := by
  obtain ⟨x, xs, hrev⟩ : ∃ x xs, d.reverse = x :: xs := by
    cases hr : d.reverse with
    | nil =>
      have : d = [] := by simpa using congrArg List.reverse hr
      exact absurd this hd
    | cons x xs => exact ⟨x, xs, rfl⟩
  have hdrev : (x :: xs).reverse = d := by rw [← hrev, List.reverse_reverse]
  have hcons : collectConfigDirsRev fs (x :: xs)
      = (if (fs.dirConfig ((x :: xs).reverse)).isSome
          then [(x :: xs).reverse] else [])
        ++ collectConfigDirsRev fs xs := rfl
  have hcol : collectConfigDirs fs d = d :: collectConfigDirsRev fs xs := by
    unfold collectConfigDirs
    rw [hrev, hcons, hdrev, hsrc]
    simp
  have hstep : ∀ m : Config,
      lookupKey k ((m.merge (loadDirConfig fs d)).language_map) = some v := by
    intro m
    show lookupKey k
      (dictMerge m.language_map (loadDirConfig fs d).language_map) = some v
    have hld : loadDirConfig fs d = loadConfigFile src := by
      unfold loadDirConfig
      rw [hsrc]
    rw [hld, lookupKey_dictMerge_of_isSome _ _ _ (by rw [hk]; rfl), hk]
  have hlegacy : ∀ m : Config, lookupKey k m.language_map = some v →
      lookupKey k ((m.merge
        { Config.empty with ignore_patterns := fs.legacy d }).language_map)
        = some v := by
    intro m hm
    show lookupKey k (dictMerge m.language_map []) = some v
    rw [dictMerge_nil_right]
    exact hm
  have hres : lookupKey k (resolveDirConfigs fs g d).language_map = some v := by
    unfold resolveDirConfigs
    rw [hcol, List.reverse_cons, List.foldl_append, List.foldl_cons,
      List.foldl_nil]
    exact hstep _
  unfold getConfigForDirectory
  by_cases hleg : (fs.legacy d).isEmpty
  · rw [if_pos hleg]
    exact hres
  · rw [if_neg hleg]
    exact hlegacy _ hres

/-- Witness for C1, the spec's concrete scenario: the default maps
`.py → python`, the global config remaps it to `py3`, a directory config two
levels above the target remaps it to `py3-custom`, and the target
directory's own config remaps it to `local-py`; resolution yields
`local-py`. -/
theorem closest_config_wins_witness :
    lookupKey ".py"
      (getConfigForDirectory
        ⟨fun q =>
          if q = ["home", "user", "proj", "sub"] then
            some (.ok { language_map := some [(".py", "local-py")] })
          else if q = ["home", "user"] then
            some (.ok { language_map := some [(".py", "py3-custom")] })
          else none,
          fun _ => []⟩
        { Config.empty with language_map := [(".py", "py3")] }
        ["home", "user", "proj", "sub"]).language_map
      = some "local-py" :=
  closest_config_wins
    ⟨fun q =>
      if q = ["home", "user", "proj", "sub"] then
        some (.ok { language_map := some [(".py", "local-py")] })
      else if q = ["home", "user"] then
        some (.ok { language_map := some [(".py", "py3-custom")] })
      else none,
      fun _ => []⟩
    { Config.empty with language_map := [(".py", "py3")] }
    ["home", "user", "proj", "sub"]
    (.ok { language_map := some [(".py", "local-py")] })
    ".py" "local-py" (by decide) (by decide) (by decide)

theorem latin1Valid_replicate_255 (n : Nat) :
    latin1Valid (List.replicate n 255) = true := by
  unfold latin1Valid
  rw [List.all_eq_true]
  intro x hx
  have hx' : x = 255 := List.eq_of_mem_replicate hx
  subst hx'
  decide

/-- C4 evaluated on its own scenario: `archive.bin`, 4096 bytes of `0xFF`
(not valid UTF-8), extension outside the text-extension set and filename
outside the filename map, MIME guess `application/octet-stream`.  The claim
says classification must return include = false; the code returns include =
true, because the Latin-1 retry of the content probe succeeds on every byte
string (all 256 byte values are Latin-1 characters), so the probe can only
report "not text" for unreadable files, never for binary content. -/
theorem binary_file_included_despite_spec :
    utf8Valid ((List.replicate 4096 255).take 4096) = false
    ∧ latin1Valid ((List.replicate 4096 255).take 4096) = true
    ∧ guessMimeType "archive.bin" = some "application/octet-stream"
    ∧ shouldIncludeFile defaultConfig ["proj"] ⟨["proj", "archive.bin"], true⟩
        (List.replicate 4096 255) true = true := by
  have htake : (List.replicate 4096 (255 : Nat)).take 4096
      = List.replicate 4096 255 := by
    rw [List.take_replicate, Nat.min_self]
  have hutf : utf8Valid (List.replicate 4096 (255 : Nat)) = false := by
    decide
  have hlat := latin1Valid_replicate_255 4096
  have hprobe : mimeIsTextFile.mimeContentProbe (List.replicate 4096 255) true
      = true := by
    unfold mimeIsTextFile.mimeContentProbe
    rw [htake, hutf, hlat]
    simp
  have hguess : guessMimeType (pathName ["proj", "archive.bin"])
      = some "application/octet-stream" := by
    decide
  have hmime : mimeIsTextFile (pathName ["proj", "archive.bin"])
      (List.replicate 4096 255) true = true := by
    unfold mimeIsTextFile
    rw [hguess]
    show (if pyStartsWith "application/octet-stream" "text/" = true then true
      else mimeIsTextFile.mimeContentProbe (List.replicate 4096 255) true) = true
    rw [if_neg (by decide), hprobe]
  have htext : filterIsTextFile defaultConfig ⟨["proj", "archive.bin"], true⟩
      (List.replicate 4096 255) true = true := by
    unfold filterIsTextFile
    rw [if_neg (by decide), if_neg (by decide), hmime]
  have hig : shouldIgnore defaultConfig ["proj"]
      ⟨["proj", "archive.bin"], true⟩ = false := by
    decide
  refine ⟨by rw [htake]; exact hutf, by rw [htake]; exact hlat, by decide, ?_⟩
  unfold shouldIncludeFile
  rw [hig, htext]
  simp

/-! ## Order lemmas for the path comparison -/

theorem charsLt_irrefl : ∀ a, charsLt a a = false
  | [] => rfl
  | c :: cs => by simp [charsLt, charsLt_irrefl cs]

theorem charsLt_asymm : ∀ a b, charsLt a b = true → charsLt b a = false
  | [], [] => by intro h; simp [charsLt] at h
  | [], _ :: _ => fun _ => rfl
  | _ :: _, [] => by intro h; simp [charsLt] at h
  | a :: as, b :: bs => by
    intro h
    by_cases hab : a = b
    · subst hab
      simp only [charsLt, if_pos rfl] at h ⊢
      exact charsLt_asymm as bs h
    · simp only [charsLt, if_neg hab, if_neg (Ne.symm hab)] at h ⊢
      exact decide_eq_false (not_lt_of_lt (of_decide_eq_true h))

theorem charsLt_trans : ∀ a b c,
    charsLt a b = true → charsLt b c = true → charsLt a c = true
  | [], [], _ => by intro h; simp [charsLt] at h
  | [], _ :: _, [] => by intro _ h; simp [charsLt] at h
  | [], _ :: _, _ :: _ => fun _ _ => rfl
  | _ :: _, [], _ => by intro h; simp [charsLt] at h
  | _ :: _, _ :: _, [] => by intro _ h; simp [charsLt] at h
  | a :: as, b :: bs, c :: cs => by
    intro h1 h2
    by_cases hab : a = b <;> by_cases hbc : b = c
    · subst hab; subst hbc
      simp only [charsLt, if_pos rfl] at h1 h2 ⊢
      exact charsLt_trans as bs cs h1 h2
    · subst hab
      simp only [charsLt, if_pos rfl, if_neg hbc] at h1 h2 ⊢
      exact h2
    · subst hbc
      simp only [charsLt, if_pos rfl, if_neg hab] at h1 h2 ⊢
      exact h1
    · simp only [charsLt, if_neg hab, if_neg hbc] at h1 h2
      have hlt : a < c := lt_trans (of_decide_eq_true h1) (of_decide_eq_true h2)
      have hac : a ≠ c := fun he =>
        absurd (lt_trans (he ▸ of_decide_eq_true h1) (of_decide_eq_true h2))
          (lt_irrefl c)
      simp only [charsLt, if_neg hac]
      exact decide_eq_true hlt

theorem charsLt_connex : ∀ a b, a ≠ b → charsLt a b = true ∨ charsLt b a = true
  | [], [] => fun h => absurd rfl h
  | [], _ :: _ => fun _ => .inl rfl
  | _ :: _, [] => fun _ => .inr rfl
  | a :: as, b :: bs => fun h => by
    by_cases hab : a = b
    · subst hab
      have hne : as ≠ bs := fun he => h (he ▸ rfl)
      cases charsLt_connex as bs hne with
      | inl h' => exact .inl (by simp [charsLt, h'])
      | inr h' => exact .inr (by simp [charsLt, h'])
    · cases lt_or_gt_of_ne hab with
      | inl hlt => exact .inl (by simp [charsLt, hab, hlt])
      | inr hgt => exact .inr (by simp [charsLt, Ne.symm hab, hgt])

theorem strLt_asymm (a b : String) (h : strLt a b = true) : strLt b a = false :=
  charsLt_asymm _ _ h

theorem strLt_trans (a b c : String) (h1 : strLt a b = true)
    (h2 : strLt b c = true) : strLt a c = true :=
  charsLt_trans _ _ _ h1 h2

theorem strLt_connex (a b : String) (h : a ≠ b) :
    strLt a b = true ∨ strLt b a = true :=
  charsLt_connex _ _ (fun he => h (by
    cases a
    cases b
    exact congrArg String.mk he))

theorem partsLe_total : ∀ a b, partsLe a b = true ∨ partsLe b a = true
  | [], _ => .inl rfl
  | _ :: _, [] => .inr rfl
  | a :: as, b :: bs => by
    by_cases hab : a = b
    · subst hab
      cases partsLe_total as bs with
      | inl h => exact .inl (by simp [partsLe, h])
      | inr h => exact .inr (by simp [partsLe, h])
    · cases strLt_connex a b hab with
      | inl h => exact .inl (by simp [partsLe, hab, h])
      | inr h => exact .inr (by simp [partsLe, Ne.symm hab, h])

theorem partsLe_trans : ∀ a b c,
    partsLe a b = true → partsLe b c = true → partsLe a c = true
  | [], _, _ => fun _ _ => rfl
  | _ :: _, [], _ => by intro h; simp [partsLe] at h
  | _ :: _, _ :: _, [] => by intro _ h; simp [partsLe] at h
  | a :: as, b :: bs, c :: cs => by
    intro h1 h2
    by_cases hab : a = b <;> by_cases hbc : b = c
    · subst hab; subst hbc
      simp only [partsLe, if_pos rfl] at h1 h2 ⊢
      exact partsLe_trans as bs cs h1 h2
    · subst hab
      simp only [partsLe, if_pos rfl, if_neg hbc] at h1 h2 ⊢
      exact h2
    · subst hbc
      simp only [partsLe, if_pos rfl, if_neg hab] at h1 h2 ⊢
      exact h1
    · simp only [partsLe, if_neg hab, if_neg hbc] at h1 h2
      have hlt : strLt a c = true := strLt_trans a b c h1 h2
      have hac : a ≠ c := by
        intro he
        subst he
        have := strLt_asymm a b h1
        rw [this] at h2
        exact Bool.false_ne_true h2
      simp only [partsLe, if_neg hac]
      exact hlt

theorem partsLe_antisymm : ∀ a b,
    partsLe a b = true → partsLe b a = true → a = b
  | [], [] => fun _ _ => rfl
  | [], _ :: _ => fun _ h => by simp [partsLe] at h
  | _ :: _, [] => fun h _ => by simp [partsLe] at h
  | a :: as, b :: bs => fun h1 h2 => by
    by_cases hab : a = b
    · subst hab
      simp only [partsLe, if_pos rfl] at h1 h2
      rw [partsLe_antisymm as bs h1 h2]
    · simp only [partsLe, if_neg hab, if_neg (Ne.symm hab)] at h1 h2
      have := strLt_asymm a b h1
      rw [this] at h2
      exact absurd h2 Bool.false_ne_true

theorem partsLt_iff : ∀ a b, partsLt a b = true ↔ partsLe a b = true ∧ a ≠ b
  | [], [] => by simp [partsLt, partsLe]
  | [], x :: xs => by simp [partsLt, partsLe]
  | x :: xs, [] => by simp [partsLt, partsLe]
  | a :: as, b :: bs => by
    by_cases hab : a = b
    · subst hab
      have e1 : partsLt (a :: as) (a :: bs) = partsLt as bs := by
        simp [partsLt]
      have e2 : partsLe (a :: as) (a :: bs) = partsLe as bs := by
        simp [partsLe]
      rw [e1, e2, partsLt_iff as bs]
      simp
    · simp [partsLt, partsLe, hab, List.cons.injEq]

instance : IsTotal (List String) pathOrder := ⟨fun a b => partsLe_total a b⟩

instance : IsTrans (List String) pathOrder := ⟨fun a b c => partsLe_trans a b c⟩

/-- A directory tree with a file `a.txt` and a subdirectory `a` holding a
file `b`. -/
def exporterTraversalExample : FSTree :=
  .dir "proj" true [.dir "a" true [.file "b"], .file "a.txt"]

/-- Counterexample to C8 as stated: in the example tree, the processing
order puts `a/b` before `a.txt` (Python sorts paths by their component
tuples, and the component `a` sorts before `a.txt`), yet the relative path
string `a.txt` is lexicographically smaller than `a/b` (`.` precedes `/`).
So `a/b` is processed before `a.txt` although its relative path string is
not lexicographically smaller. -/
theorem export_order_claim_counterexample :
    sortFiles (findFiles exporterTraversalExample) = [["a", "b"], ["a.txt"]]
    ∧ strLt (joinPath ["a.txt"]) (joinPath ["a", "b"]) = true := by
  decide

/-- C8 (amended): the sequence of candidate files handed to classification
is sorted by the componentwise (segment-by-segment) lexicographic order on
relative paths — the order Python's `sorted()` applies to `pathlib` paths —
rather than by the relative path string: for a run whose enumerated paths
are distinct, file `a` is processed before file `b` iff `a`'s component
tuple is lexicographically smaller than `b`'s. -/
theorem export_order_is_segmentwise (l : List (List String)) (hnd : l.Nodup)
    (i j : Nat) (hi : i < (sortFiles l).length)
    (hj : j < (sortFiles l).length) :
    i < j
      ↔ partsLt ((sortFiles l).get ⟨i, hi⟩) ((sortFiles l).get ⟨j, hj⟩)
          = true := by
  have hsorted : (sortFiles l).Sorted pathOrder :=
    List.sorted_insertionSort pathOrder l
  have hnd' : (sortFiles l).Nodup :=
    ((List.perm_insertionSort pathOrder l).nodup_iff).mpr hnd
  constructor
  · intro hij
    have hle : pathOrder ((sortFiles l).get ⟨i, hi⟩) ((sortFiles l).get ⟨j, hj⟩) :=
      hsorted.rel_get_of_lt (by simpa [Fin.mk_lt_mk] using hij)
    have hne : (sortFiles l).get ⟨i, hi⟩ ≠ (sortFiles l).get ⟨j, hj⟩ := by
      intro he
      have := (hnd'.get_inj_iff).mp he
      simp only [Fin.mk.injEq] at this
      omega
    exact (partsLt_iff _ _).mpr ⟨hle, hne⟩
  · intro hlt
    obtain ⟨hle, hne⟩ := (partsLt_iff _ _).mp hlt
    rcases Nat.lt_trichotomy i j with h | h | h
    · exact h
    · subst h
      exact absurd rfl hne
    · have hle' : pathOrder ((sortFiles l).get ⟨j, hj⟩)
          ((sortFiles l).get ⟨i, hi⟩) :=
        hsorted.rel_get_of_lt (by simpa [Fin.mk_lt_mk] using h)
      exact absurd (partsLe_antisymm _ _ hle hle') hne

/-- Witness for the amended C8 on the example tree: position 0 is `a/b`,
position 1 is `a.txt`, and the componentwise order confirms the placement. -/
theorem export_order_is_segmentwise_witness :
    partsLt ((sortFiles (findFiles exporterTraversalExample)).get ⟨0, by decide⟩)
        ((sortFiles (findFiles exporterTraversalExample)).get ⟨1, by decide⟩)
      = true :=
  (export_order_is_segmentwise (findFiles exporterTraversalExample)
    (by decide) 0 1 (by decide) (by decide)).mp (by decide)

end Ctxport










